import Mathlib

/-!
# Shallow embedding of langbly-js (src/src/client.ts)

The repository is a TypeScript client for a translation HTTP API.  Its core
is `Langbly.fetchWithRetry`, a bounded retry loop around `fetch` with
exponential backoff, a server-supplied `Retry-After` hint, and typed error
mapping (`throwForStatus`).  The public operations (`translate`, `detect`,
`languages`) shape one request each and map the JSON reply.

Modelling conventions:
* JavaScript numbers are modelled as exact rationals (`ℚ`); the delay
  arithmetic of the client stays far below 2^53, where floats are exact on
  the integer values involved.
* The `Retry-After` header is modelled by `HeaderVal`: `absent` (no header),
  `empty` (present with the empty string, which is falsy in JS and for which
  `parseRetryAfter` returns `null`), `num v` (a non-empty string that
  `Number(...)` parses to the finite value `v`), and `nonFinite` (a non-empty
  string that parses to `NaN` or `±Infinity`).
* `fetch` outcomes are supplied by an oracle `Nat → FetchOutcome` giving the
  outcome of each attempt; the loop's observable behaviour is a `RetryTrace`:
  how many fetch calls were made, which sleeps happened, and the result
  (a returned `Response` or a thrown `LangblyError`).
* Exceptions become an `Except`; the three error classes of the source
  (`LangblyError`, `RateLimitError`, `AuthenticationError`) become the three
  constructors of one inductive, with `status`/`code` accessors recording the
  values the subclasses pass to `super`.
-/

namespace LangblyJs

/-- The truthy/parse status of the `Retry-After` response header. -/
inductive HeaderVal where
  | absent : HeaderVal
  | empty : HeaderVal
  | num : ℚ → HeaderVal
  | nonFinite : HeaderVal
deriving DecidableEq

/-- `true` exactly on `HeaderVal.num v`: the header is present, truthy and
`Number(...)` parses it to a finite value. -/
def HeaderVal.isNum : HeaderVal → Bool
  | .num _ => true
  | _ => false

/-- Outcome of `await resp.json()` in `throwForStatus`: the parse may throw
(`invalid`), or yield a JSON value whose `error.message` / `error.status`
fields may each be present or absent. -/
inductive RespBody where
  | invalid : RespBody
  | json : Option String → Option String → RespBody
deriving DecidableEq

/-- The part of a `fetch` `Response` the client reads: `ok`, `status`,
`statusText`, the `Retry-After` header and the JSON body. -/
structure Response where
  ok : Bool
  status : Nat
  statusText : String
  retryAfterHeader : HeaderVal
  body : RespBody
deriving DecidableEq

/-- One attempt of `fetch` either rejects (network error or timeout, carrying
the error message) or resolves to a `Response`. -/
inductive FetchOutcome where
  | reject : String → FetchOutcome
  | response : Response → FetchOutcome
deriving DecidableEq

/-- The thrown error classes of client.ts: `LangblyError(message, status,
code)`, `RateLimitError(message, retryAfter)` (which passes `429` and
`"RATE_LIMITED"` to `super`), and `AuthenticationError(message)` (which
passes `401` and `"UNAUTHENTICATED"`). -/
inductive LangblyError where
  | langblyError : String → Nat → String → LangblyError
  | rateLimitError : String → Option ℚ → LangblyError
  | authenticationError : String → LangblyError
deriving DecidableEq

/-- The `status` field of a thrown error, as set by the constructors. -/
def LangblyError.status : LangblyError → Nat
  | .langblyError _ s _ => s
  | .rateLimitError _ _ => 429
  | .authenticationError _ => 401

/-- The `code` field of a thrown error, as set by the constructors. -/
def LangblyError.code : LangblyError → String
  | .langblyError _ _ c => c
  | .rateLimitError _ _ => "RATE_LIMITED"
  | .authenticationError _ => "UNAUTHENTICATED"

/-- The `message` field of a thrown error. -/
def LangblyError.message : LangblyError → String
  | .langblyError m _ _ => m
  | .rateLimitError m _ => m
  | .authenticationError m => m

/-- The `retryAfter` field: `some ra` when the error is a `RateLimitError`
carrying `ra`, `none` for the other classes (which have no such field). -/
def LangblyError.retryAfterField : LangblyError → Option (Option ℚ)
  | .rateLimitError _ ra => some ra
  | _ => none

/-- client.ts line 66: `new Set([429, 500, 502, 503, 504])`. -/
def RETRIABLE_STATUS_CODES : List Nat := [429, 500, 502, 503, 504]

/-- `RETRIABLE_STATUS_CODES.has(status)`. -/
def retriable (status : Nat) : Bool := RETRIABLE_STATUS_CODES.contains status

/-- The `message` local of `throwForStatus`:
`err?.error?.message ?? resp.statusText`, falling back to `statusText` when
the JSON parse throws. -/
def respMessage (resp : Response) : String :=
  match resp.body with
  | .invalid => resp.statusText
  | .json m _ => m.getD resp.statusText

/-- The `code` local of `throwForStatus`: `err?.error?.status ?? ""`. -/
def respCode (resp : Response) : String :=
  match resp.body with
  | .invalid => ""
  | .json _ c => c.getD ""

/-- `Langbly.parseRetryAfter`: `null` when the header is absent or falsy,
`Number(header)` when it is finite, `null` otherwise. -/
def parseRetryAfter (resp : Response) : Option ℚ :=
  match resp.retryAfterHeader with
  | .num v => some v
  | _ => none

/-- `Langbly.throwForStatus`: map a non-ok response to the error thrown. -/
def throwForStatus (resp : Response) : LangblyError :=
  if resp.status = 401 then
    .authenticationError (respMessage resp)
  else if resp.status = 429 then
    .rateLimitError (respMessage resp) (parseRetryAfter resp)
  else
    .langblyError (respMessage resp) resp.status (respCode resp)

/-- `Langbly.backoffDelay`: `Math.min(500 * 2 ** attempt, 10_000)`. -/
def backoffDelay (attempt : Nat) : ℚ := min (500 * 2 ^ attempt) 10000

/-- `Langbly.getRetryDelay`: use `Math.min(retryAfter * 1000, 30_000)` when
the `Retry-After` header is truthy and parses to a finite number, otherwise
the exponential backoff `Math.min(500 * 2 ** attempt, 10_000)`. -/
def getRetryDelay (resp : Response) (attempt : Nat) : ℚ :=
  match resp.retryAfterHeader with
  | .num v => min (v * 1000) 30000
  | _ => min (500 * 2 ^ attempt) 10000

/-- Observable behaviour of one `fetchWithRetry` call: the number of `fetch`
attempts performed, the sleep durations in order, and the returned response
or thrown error. -/
structure RetryTrace where
  fetchCalls : Nat
  delays : List ℚ
  result : Except LangblyError Response

/-- The `for (let attempt = 0; attempt <= this.maxRetries; attempt++)` loop
of `Langbly.fetchWithRetry`, entered at iteration `attempt`; `oracle a` is
the outcome of the `fetch` call of iteration `a`.
* rejection: retry after `backoffDelay attempt` while `attempt < maxRetries`,
  else throw `LangblyError` with status `0`, code `"CONNECTION_ERROR"` and a
  message reporting `maxRetries + 1` attempts;
* `ok` response: return it;
* non-ok, non-retriable status: throw `throwForStatus` immediately;
* non-ok, retriable status: sleep `getRetryDelay` and retry while
  `attempt < maxRetries`, else throw `throwForStatus`. -/
def fetchWithRetryFrom (oracle : Nat → FetchOutcome) (maxRetries : Nat)
    (attempt : Nat) : RetryTrace :=
  match oracle attempt with
  | .reject msg =>
      if h : attempt < maxRetries then
        let rest := fetchWithRetryFrom oracle maxRetries (attempt + 1)
        { fetchCalls := rest.fetchCalls + 1
          delays := backoffDelay attempt :: rest.delays
          result := rest.result }
      else
        { fetchCalls := 1
          delays := []
          result := .error (.langblyError
            ("Request failed after " ++ toString (maxRetries + 1) ++
              " attempts: " ++ msg) 0 "CONNECTION_ERROR") }
  | .response resp =>
      if resp.ok then
        { fetchCalls := 1, delays := [], result := .ok resp }
      else if retriable resp.status = false then
        { fetchCalls := 1, delays := [], result := .error (throwForStatus resp) }
      else if h : attempt < maxRetries then
        let rest := fetchWithRetryFrom oracle maxRetries (attempt + 1)
        { fetchCalls := rest.fetchCalls + 1
          delays := getRetryDelay resp attempt :: rest.delays
          result := rest.result }
      else
        { fetchCalls := 1, delays := [], result := .error (throwForStatus resp) }
termination_by maxRetries - attempt

/-- `Langbly.fetchWithRetry`: the loop started at `attempt = 0`. -/
def fetchWithRetry (oracle : Nat → FetchOutcome) (maxRetries : Nat) :
    RetryTrace :=
  fetchWithRetryFrom oracle maxRetries 0

/-!
## Constructor and public operations

`LangblyOptions.apiKey` is `Option String` so that a JavaScript caller's
missing field (`undefined`) is representable; `!options.apiKey` is true for
`undefined` and for the empty string.  The public operations perform no
assignment to `this` in the source, so their state-passing translations
return the configuration they received; the JSON replies are supplied by
typed server oracles.
-/

/-- The option record accepted by `new Langbly(options)`. -/
structure LangblyOptions where
  apiKey : Option String
  baseUrl : Option String
  timeout : Option Nat
  maxRetries : Option Nat
deriving DecidableEq

/-- The configuration fields of a `Langbly` instance. -/
structure Langbly where
  apiKey : String
  baseUrl : String
  timeout : Nat
  maxRetries : Nat
deriving DecidableEq

/-- JS truthiness test on an optional string: `undefined` and `""` are
falsy. -/
def isFalsyStr : Option String → Bool
  | none => true
  | some s => s = ""

/-- `.replace(/\/$/, "")`: remove one trailing slash when present (stated
on the character list so that it evaluates by `rfl`). -/
def stripTrailingSlash (s : String) : String :=
  if s.data.getLast? = some ('/' : Char) then String.mk s.data.dropLast else s

/-- The `Langbly` constructor: throw `Error("apiKey is required")` when
`apiKey` is falsy, otherwise assign the four configuration fields with their
defaults (`https://api.langbly.com` with a trailing slash stripped, timeout
`30_000`, maxRetries `2`). -/
def Langbly.create (options : LangblyOptions) : Except String Langbly :=
  if isFalsyStr options.apiKey then
    .error "apiKey is required"
  else
    .ok
      { apiKey := options.apiKey.getD ""
        baseUrl := stripTrailingSlash (options.baseUrl.getD "https://api.langbly.com")
        timeout := options.timeout.getD 30000
        maxRetries := options.maxRetries.getD 2 }

/-- The options record of `translate`. -/
structure TranslateOptions where
  target : String
  source : Option String
  format : Option String
deriving DecidableEq

/-- One item of the server's `data.translations` array. -/
structure TranslateItem where
  translatedText : String
  detectedSourceLanguage : Option String
  model : Option String
deriving DecidableEq

/-- The JSON body posted to `/language/translate/v2`: `q` and `target`
always, `source` and `format` only when truthy. -/
structure TranslateBody where
  q : List String
  target : String
  source : Option String
  format : Option String
deriving DecidableEq

/-- A `Translation` result returned to the caller. -/
structure Translation where
  text : String
  source : String
  model : Option String
deriving DecidableEq

/-- The `translate` argument: a single string or an array of strings. -/
inductive TranslateInput where
  | single : String → TranslateInput
  | batch : List String → TranslateInput
deriving DecidableEq

/-- `Array.isArray(text) ? text : [text]`. -/
def TranslateInput.toQ : TranslateInput → List String
  | .single s => [s]
  | .batch l => l

/-- Keep an optional string field only when truthy (`if (x) body.f = x`). -/
def truthyOpt : Option String → Option String
  | some s => if s = "" then none else some s
  | none => none

/-- The request body built by `translate` before posting. -/
def mkTranslateBody (text : TranslateInput) (options : TranslateOptions) :
    TranslateBody :=
  { q := text.toQ
    target := options.target
    source := truthyOpt options.source
    format := truthyOpt options.format }

/-- The per-item mapping of `translate`:
`text: item.translatedText`,
`source: item.detectedSourceLanguage ?? options.source ?? ""`,
`model: item.model`. -/
def mkTranslation (options : TranslateOptions) (item : TranslateItem) :
    Translation :=
  { text := item.translatedText
    source := item.detectedSourceLanguage.getD (options.source.getD "")
    model := item.model }

/-- The value of `translate`: `Translation[]` for an array argument,
`translations[0]` (which is `undefined` on an empty reply) for a string
argument. -/
inductive TranslateResult where
  | single : Option Translation → TranslateResult
  | batch : List Translation → TranslateResult
deriving DecidableEq

/-- `Langbly.translate`, with the server's `data.translations` reply given
by the oracle `server`: returns the list of request bodies posted (the
method makes exactly one `postWithRetry` call; retries re-send that same
body) and the result handed to the caller. -/
def translate (server : TranslateBody → List TranslateItem)
    (text : TranslateInput) (options : TranslateOptions) :
    List TranslateBody × TranslateResult :=
  let body := mkTranslateBody text options
  let translations := (server body).map (mkTranslation options)
  ([body],
    match text with
    | .single _ => .single translations.head?
    | .batch _ => .batch translations)

/-- The inner `data.detections[0][0]` item read by `detect`. -/
structure DetectionItem where
  language : String
  confidence : Option ℚ
deriving DecidableEq

/-- The `Detection` record returned by `detect`. -/
structure Detection where
  language : String
  confidence : ℚ
deriving DecidableEq

/-- `Langbly.detect`, with the server's first detection item given by the
oracle: `{ language: det.language, confidence: det.confidence ?? 0 }`. -/
def detect (server : String → DetectionItem) (text : String) : Detection :=
  { language := (server text).language
    confidence := (server text).confidence.getD 0 }

/-- One item of the server's `data.languages` array. -/
structure LanguageItem where
  language : String
  name : Option String
deriving DecidableEq

/-- A `Language` record returned by `languages`. -/
structure Language where
  code : String
  name : Option String
deriving DecidableEq

/-- `Langbly.languages`, with the reply given by the oracle (indexed by the
optional `target` query parameter): map each item to
`{ code: lang.language, name: lang.name }`. -/
def languages (server : Option String → List LanguageItem)
    (target : Option String) : List Language :=
  (server target).map (fun lang => { code := lang.language, name := lang.name })

/-- State-passing `translate`: the source assigns no field of `this`, so the
configuration comes back unchanged next to the value. -/
def Langbly.translateSt (c : Langbly)
    (server : TranslateBody → List TranslateItem)
    (text : TranslateInput) (options : TranslateOptions) :
    Langbly × List TranslateBody × TranslateResult :=
  (c, translate server text options)

/-- State-passing `detect`: no field of `this` is assigned. -/
def Langbly.detectSt (c : Langbly) (server : String → DetectionItem)
    (text : String) : Langbly × Detection :=
  (c, detect server text)

/-- State-passing `languages`: no field of `this` is assigned. -/
def Langbly.languagesSt (c : Langbly)
    (server : Option String → List LanguageItem)
    (target : Option String) : Langbly × List Language :=
  (c, languages server target)

/-!
## Concrete fixtures

Closed sample values used to instantiate the theorems below on concrete
inputs.
-/

/-- A terminal (non-retriable) `404` response. -/
def resp404 : Response :=
  { ok := false, status := 404, statusText := "Not Found",
    retryAfterHeader := .absent, body := .json (some "not found") (some "NOT_FOUND") }

/-- A retriable `503` response without a `Retry-After` hint. -/
def resp503 : Response :=
  { ok := false, status := 503, statusText := "Service Unavailable",
    retryAfterHeader := .absent, body := .invalid }

/-- A retriable `503` response whose `Retry-After` header parses to `7`. -/
def resp503hint : Response :=
  { ok := false, status := 503, statusText := "Service Unavailable",
    retryAfterHeader := .num 7, body := .invalid }

/-- A `429` response whose `Retry-After` header parses to `3`. -/
def resp429 : Response :=
  { ok := false, status := 429, statusText := "Too Many Requests",
    retryAfterHeader := .num 3, body := .json (some "slow down") (some "RESOURCE_EXHAUSTED") }

/-- A `429` response with no `Retry-After` header. -/
def resp429nohint : Response :=
  { ok := false, status := 429, statusText := "Too Many Requests",
    retryAfterHeader := .absent, body := .invalid }

/-- A `401` response with a JSON error body. -/
def resp401 : Response :=
  { ok := false, status := 401, statusText := "Unauthorized",
    retryAfterHeader := .absent, body := .json (some "bad key") (some "UNAUTHENTICATED") }

/-- A successful response. -/
def respOk : Response :=
  { ok := true, status := 200, statusText := "OK",
    retryAfterHeader := .absent, body := .json none none }

/-- A sample server translation item. -/
def sampleItem : TranslateItem :=
  { translatedText := "hallo", detectedSourceLanguage := some "en", model := none }

/-- A server oracle answering every translate request with `[sampleItem]`. -/
def sampleServer : TranslateBody → List TranslateItem := fun _ => [sampleItem]

/-- Sample translate options with an explicit `source`. -/
def sampleOptions : TranslateOptions :=
  { target := "de", source := some "de", format := none }

/-!
## Step lemmas for the retry loop
-/

theorem reject_step (oracle : Nat → FetchOutcome) (m a : Nat) (msg : String)
    (hlt : a < m) (ho : oracle a = .reject msg) :
    fetchWithRetryFrom oracle m a =
      { fetchCalls := (fetchWithRetryFrom oracle m (a + 1)).fetchCalls + 1
        delays := backoffDelay a :: (fetchWithRetryFrom oracle m (a + 1)).delays
        result := (fetchWithRetryFrom oracle m (a + 1)).result } := by
  rw [fetchWithRetryFrom, ho]
  simp [hlt]

theorem reject_final (oracle : Nat → FetchOutcome) (m a : Nat) (msg : String)
    (hlt : ¬ a < m) (ho : oracle a = .reject msg) :
    fetchWithRetryFrom oracle m a =
      { fetchCalls := 1
        delays := []
        result := .error (.langblyError
          ("Request failed after " ++ toString (m + 1) ++ " attempts: " ++ msg)
          0 "CONNECTION_ERROR") } := by
  rw [fetchWithRetryFrom, ho]
  simp [hlt]

theorem ok_step (oracle : Nat → FetchOutcome) (m a : Nat) (r : Response)
    (ho : oracle a = .response r) (hok : r.ok = true) :
    fetchWithRetryFrom oracle m a =
      { fetchCalls := 1, delays := [], result := .ok r } := by
  rw [fetchWithRetryFrom, ho]
  simp [hok]

theorem nonretriable_step (oracle : Nat → FetchOutcome) (m a : Nat)
    (r : Response) (ho : oracle a = .response r) (hok : r.ok = false)
    (hnr : retriable r.status = false) :
    fetchWithRetryFrom oracle m a =
      { fetchCalls := 1, delays := [], result := .error (throwForStatus r) } := by
  rw [fetchWithRetryFrom, ho]
  simp [hok, hnr]

theorem retriable_step (oracle : Nat → FetchOutcome) (m a : Nat)
    (r : Response) (hlt : a < m) (ho : oracle a = .response r)
    (hok : r.ok = false) (hr : retriable r.status = true) :
    fetchWithRetryFrom oracle m a =
      { fetchCalls := (fetchWithRetryFrom oracle m (a + 1)).fetchCalls + 1
        delays := getRetryDelay r a :: (fetchWithRetryFrom oracle m (a + 1)).delays
        result := (fetchWithRetryFrom oracle m (a + 1)).result } := by
  rw [fetchWithRetryFrom, ho]
  simp [hok, hr, hlt]

theorem retriable_final (oracle : Nat → FetchOutcome) (m a : Nat)
    (r : Response) (hlt : ¬ a < m) (ho : oracle a = .response r)
    (hok : r.ok = false) (hr : retriable r.status = true) :
    fetchWithRetryFrom oracle m a =
      { fetchCalls := 1, delays := [], result := .error (throwForStatus r) } := by
  rw [fetchWithRetryFrom, ho]
  simp [hok, hr, hlt]

/-!
## Inductive facts about the loop
-/

theorem fetchCalls_bounds_aux (oracle : Nat → FetchOutcome) (m : Nat) :
    ∀ k a, m - a ≤ k →
      1 ≤ (fetchWithRetryFrom oracle m a).fetchCalls ∧
      (fetchWithRetryFrom oracle m a).fetchCalls ≤ m - a + 1 := by
  intro k
  induction k with
  | zero =>
    intro a ha
    have hnl : ¬ a < m := by omega
    cases ho : oracle a with
    | reject msg => rw [reject_final oracle m a msg hnl ho]; dsimp only; omega
    | response r =>
      cases hok : r.ok with
      | true => rw [ok_step oracle m a r ho hok]; dsimp only; omega
      | false =>
        cases hr : retriable r.status with
        | true => rw [retriable_final oracle m a r hnl ho hok hr]; dsimp only; omega
        | false => rw [nonretriable_step oracle m a r ho hok hr]; dsimp only; omega
  | succ k ih =>
    intro a ha
    by_cases hlt : a < m
    · have hrec := ih (a + 1) (by omega)
      cases ho : oracle a with
      | reject msg =>
        rw [reject_step oracle m a msg hlt ho]
        dsimp only
        omega
      | response r =>
        cases hok : r.ok with
        | true => rw [ok_step oracle m a r ho hok]; dsimp only; omega
        | false =>
          cases hr : retriable r.status with
          | true =>
            rw [retriable_step oracle m a r hlt ho hok hr]
            dsimp only
            omega
          | false => rw [nonretriable_step oracle m a r ho hok hr]; dsimp only; omega
    · cases ho : oracle a with
      | reject msg => rw [reject_final oracle m a msg hlt ho]; dsimp only; omega
      | response r =>
        cases hok : r.ok with
        | true => rw [ok_step oracle m a r ho hok]; dsimp only; omega
        | false =>
          cases hr : retriable r.status with
          | true => rw [retriable_final oracle m a r hlt ho hok hr]; dsimp only; omega
          | false => rw [nonretriable_step oracle m a r ho hok hr]; dsimp only; omega

theorem result_ok_aux (oracle : Nat → FetchOutcome) (m : Nat) :
    ∀ k a, m - a ≤ k → ∀ r,
      (fetchWithRetryFrom oracle m a).result = .ok r → r.ok = true := by
  intro k
  induction k with
  | zero =>
    intro a ha r hres
    have hnl : ¬ a < m := by omega
    cases ho : oracle a with
    | reject msg => rw [reject_final oracle m a msg hnl ho] at hres; cases hres
    | response r' =>
      cases hok : r'.ok with
      | true =>
        rw [ok_step oracle m a r' ho hok] at hres
        cases hres
        exact hok
      | false =>
        cases hr : retriable r'.status with
        | true => rw [retriable_final oracle m a r' hnl ho hok hr] at hres; cases hres
        | false => rw [nonretriable_step oracle m a r' ho hok hr] at hres; cases hres
  | succ k ih =>
    intro a ha r hres
    by_cases hlt : a < m
    · cases ho : oracle a with
      | reject msg =>
        rw [reject_step oracle m a msg hlt ho] at hres
        exact ih (a + 1) (by omega) r hres
      | response r' =>
        cases hok : r'.ok with
        | true =>
          rw [ok_step oracle m a r' ho hok] at hres
          cases hres
          exact hok
        | false =>
          cases hr : retriable r'.status with
          | true =>
            rw [retriable_step oracle m a r' hlt ho hok hr] at hres
            exact ih (a + 1) (by omega) r hres
          | false => rw [nonretriable_step oracle m a r' ho hok hr] at hres; cases hres
    · cases ho : oracle a with
      | reject msg => rw [reject_final oracle m a msg hlt ho] at hres; cases hres
      | response r' =>
        cases hok : r'.ok with
        | true =>
          rw [ok_step oracle m a r' ho hok] at hres
          cases hres
          exact hok
        | false =>
          cases hr : retriable r'.status with
          | true => rw [retriable_final oracle m a r' hlt ho hok hr] at hres; cases hres
          | false => rw [nonretriable_step oracle m a r' ho hok hr] at hres; cases hres

theorem allReject_trace_aux (oracle : Nat → FetchOutcome)
    (msgF : Nat → String) (m : Nat) :
    ∀ k a, m - a ≤ k → a ≤ m →
      (∀ i, a ≤ i → i ≤ m → oracle i = .reject (msgF i)) →
      fetchWithRetryFrom oracle m a =
        { fetchCalls := m - a + 1
          delays := (List.range' a (m - a)).map backoffDelay
          result := .error (.langblyError
            ("Request failed after " ++ toString (m + 1) ++ " attempts: " ++
              msgF m) 0 "CONNECTION_ERROR") } := by
  intro k
  induction k with
  | zero =>
    intro a hk ham hall
    have ha : a = m := by omega
    subst ha
    rw [reject_final oracle a a (msgF a) (by omega) (hall a le_rfl le_rfl)]
    simp
  | succ k ih =>
    intro a hk ham hall
    by_cases hlt : a < m
    · rw [reject_step oracle m a (msgF a) hlt (hall a le_rfl (by omega))]
      rw [ih (a + 1) (by omega) (by omega)
        (fun i hi him => hall i (by omega) him)]
      have hma : m - a = (m - (a + 1)) + 1 := by omega
      rw [hma, List.range'_succ]
      simp
    · have ha : a = m := by omega
      subst ha
      rw [reject_final oracle a a (msgF a) (by omega) (hall a le_rfl le_rfl)]
      simp

theorem allRetriable_trace_aux (oracle : Nat → FetchOutcome)
    (respF : Nat → Response) (m : Nat) :
    ∀ k a, m - a ≤ k → a ≤ m →
      (∀ i, a ≤ i → i ≤ m → oracle i = .response (respF i) ∧
        (respF i).ok = false ∧ retriable (respF i).status = true) →
      fetchWithRetryFrom oracle m a =
        { fetchCalls := m - a + 1
          delays := (List.range' a (m - a)).map (fun i => getRetryDelay (respF i) i)
          result := .error (throwForStatus (respF m)) } := by
  intro k
  induction k with
  | zero =>
    intro a hk ham hall
    have ha : a = m := by omega
    subst ha
    obtain ⟨ho, hok, hr⟩ := hall a le_rfl le_rfl
    rw [retriable_final oracle a a (respF a) (by omega) ho hok hr]
    simp
  | succ k ih =>
    intro a hk ham hall
    by_cases hlt : a < m
    · obtain ⟨ho, hok, hr⟩ := hall a le_rfl (by omega)
      rw [retriable_step oracle m a (respF a) hlt ho hok hr]
      rw [ih (a + 1) (by omega) (by omega)
        (fun i hi him => hall i (by omega) him)]
      have hma : m - a = (m - (a + 1)) + 1 := by omega
      rw [hma, List.range'_succ]
      simp
    · have ha : a = m := by omega
      subst ha
      obtain ⟨ho, hok, hr⟩ := hall a le_rfl le_rfl
      rw [retriable_final oracle a a (respF a) (by omega) ho hok hr]
      simp

/-!
## Claim theorems
-/

/-- C1: for every fetch-outcome oracle and configured `maxRetries = n`
(default `2` when the option is absent), `fetchWithRetry` performs between
`1` and `n + 1` fetch attempts and terminates with either a successful
(`ok`) response or a thrown error; the retry count never exceeds the
configured maximum. -/
theorem retry_loop_bounded_and_terminates (oracle : Nat → FetchOutcome)
    (n : Nat) :
    1 ≤ (fetchWithRetry oracle n).fetchCalls ∧
    (fetchWithRetry oracle n).fetchCalls ≤ n + 1 ∧
    ((∃ r, (fetchWithRetry oracle n).result = .ok r ∧ r.ok = true) ∨
      ∃ e, (fetchWithRetry oracle n).result = .error e) ∧
    ∀ opts c, Langbly.create opts = .ok c → opts.maxRetries = none →
      c.maxRetries = 2 := by
  have hb := fetchCalls_bounds_aux oracle n n 0 (by omega)
  refine ⟨hb.1, by simpa using hb.2, ?_, ?_⟩
  · cases hres : (fetchWithRetry oracle n).result with
    | ok r =>
      exact Or.inl ⟨r, rfl, result_ok_aux oracle n n 0 (by omega) r hres⟩
    | error e => exact Or.inr ⟨e, rfl⟩
  · intro opts c hc hnone
    rw [Langbly.create] at hc
    split at hc
    · cases hc
    · injection hc with h
      subst h
      simp [hnone]

theorem retry_loop_bounded_and_terminates_witness :
    (fetchWithRetry (fun _ => FetchOutcome.reject "down") 2).fetchCalls ≤ 2 + 1 ∧
    ({ apiKey := "k", baseUrl := "https://api.langbly.com", timeout := 30000,
        maxRetries := 2 } : Langbly).maxRetries = 2 :=
  ⟨(retry_loop_bounded_and_terminates (fun _ => FetchOutcome.reject "down") 2).2.1,
    (retry_loop_bounded_and_terminates (fun _ => FetchOutcome.reject "down") 2).2.2.2
      ⟨some "k", none, none, none⟩ _ (by rfl) rfl⟩

/-- C2: `retriable` is membership in `{429, 500, 502, 503, 504}`; a non-ok
response with a status outside that set makes the loop throw `throwForStatus`
immediately, after exactly the one fetch attempt that produced it and with no
sleep; a non-ok response with a status in the set makes the loop perform a
further attempt while attempts remain; and when every attempt yields a
retriable non-ok response the loop uses all `m + 1` attempts and throws only
for the final one. -/
theorem retriable_vs_terminal_statuses (oracle : Nat → FetchOutcome)
    (m a : Nat) (r : Response) (respF : Nat → Response) :
    (∀ s, retriable s = true ↔
      (s = 429 ∨ s = 500 ∨ s = 502 ∨ s = 503 ∨ s = 504)) ∧
    (oracle a = .response r → r.ok = false → retriable r.status = false →
      fetchWithRetryFrom oracle m a =
        { fetchCalls := 1, delays := [], result := .error (throwForStatus r) }) ∧
    (a < m → oracle a = .response r → r.ok = false →
      retriable r.status = true →
      (fetchWithRetryFrom oracle m a).fetchCalls =
        (fetchWithRetryFrom oracle m (a + 1)).fetchCalls + 1) ∧
    ((∀ i, i ≤ m → oracle i = .response (respF i) ∧ (respF i).ok = false ∧
        retriable (respF i).status = true) →
      (fetchWithRetry oracle m).fetchCalls = m + 1 ∧
      (fetchWithRetry oracle m).result = .error (throwForStatus (respF m))) := by
  refine ⟨?_, ?_, ?_, ?_⟩
  · intro s
    simp [retriable, RETRIABLE_STATUS_CODES]
  · intro ho hok hnr
    exact nonretriable_step oracle m a r ho hok hnr
  · intro hlt ho hok hr
    rw [retriable_step oracle m a r hlt ho hok hr]
  · intro hall
    have h := allRetriable_trace_aux oracle respF m m 0 (by omega) (by omega)
      (fun i _ him => hall i him)
    unfold fetchWithRetry
    rw [h]
    refine ⟨?_, rfl⟩
    dsimp only
    omega

theorem retriable_vs_terminal_statuses_witness :
    (retriable 404 = true ↔
      (404 = 429 ∨ 404 = 500 ∨ 404 = 502 ∨ 404 = 503 ∨ 404 = 504)) ∧
    fetchWithRetryFrom (fun _ => .response resp404) 2 0 =
      { fetchCalls := 1, delays := [], result := .error (throwForStatus resp404) } ∧
    (fetchWithRetry (fun _ => .response resp503) 2).fetchCalls = 2 + 1 := by
  refine ⟨?_, ?_, ?_⟩
  · exact (retriable_vs_terminal_statuses (fun _ => .response resp404) 2 0
      resp404 (fun _ => resp404)).1 404
  · exact (retriable_vs_terminal_statuses (fun _ => .response resp404) 2 0
      resp404 (fun _ => resp404)).2.1 rfl rfl (by decide)
  · exact ((retriable_vs_terminal_statuses (fun _ => .response resp503) 2 0
      resp503 (fun _ => resp503)).2.2.2 (fun i _ => ⟨rfl, rfl, by decide⟩)).1

/-- C3: the backoff delay used between retries when no server retry hint
applies equals `min(500 * 2 ^ attempt, 10000)` milliseconds — both as the
value of `backoffDelay` and as the delay the loop actually sleeps after a
rejected attempt or after a retriable response without a finite
`Retry-After` value; the successive values are `500, 1000, 2000, 4000,
8000`, doubling while below the cap (`attempt ≤ 3`) and equal to the
`10000` ms cap from attempt `5` on. -/
theorem backoff_doubles_capped (oracle : Nat → FetchOutcome) (m a : Nat)
    (r : Response) (msg : String) :
    backoffDelay a = min (500 * 2 ^ a) 10000 ∧
    backoffDelay 0 = 500 ∧ backoffDelay 1 = 1000 ∧ backoffDelay 2 = 2000 ∧
    backoffDelay 3 = 4000 ∧ backoffDelay 4 = 8000 ∧
    (5 ≤ a → backoffDelay a = 10000) ∧
    (a ≤ 3 → backoffDelay (a + 1) = 2 * backoffDelay a) ∧
    (a < m → oracle a = .reject msg →
      (fetchWithRetryFrom oracle m a).delays.head? =
        some (min (500 * 2 ^ a) 10000)) ∧
    (a < m → oracle a = .response r → r.ok = false →
      retriable r.status = true → r.retryAfterHeader.isNum = false →
      (fetchWithRetryFrom oracle m a).delays.head? =
        some (min (500 * 2 ^ a) 10000)) := by
  refine ⟨rfl, by norm_num [backoffDelay, min_def],
    by norm_num [backoffDelay, min_def], by norm_num [backoffDelay, min_def],
    by norm_num [backoffDelay, min_def], by norm_num [backoffDelay, min_def],
    ?_, ?_, ?_, ?_⟩
  · intro h5
    rw [backoffDelay, min_eq_right]
    calc (10000 : ℚ) ≤ 500 * 2 ^ 5 := by norm_num
      _ ≤ 500 * 2 ^ a := by
          have h := pow_le_pow_right₀ (a := (2 : ℚ)) (by norm_num) h5
          linarith
  · intro h3
    interval_cases a <;> norm_num [backoffDelay, min_def]
  · intro hlt ho
    rw [reject_step oracle m a msg hlt ho]
    rfl
  · intro hlt ho hok hr hnum
    rw [retriable_step oracle m a r hlt ho hok hr]
    dsimp only
    rw [List.head?_cons]
    cases hh : r.retryAfterHeader with
    | num v => rw [hh] at hnum; cases hnum
    | absent => rw [getRetryDelay, hh]
    | empty => rw [getRetryDelay, hh]
    | nonFinite => rw [getRetryDelay, hh]

theorem backoff_doubles_capped_witness :
    backoffDelay 5 = 10000 ∧
    backoffDelay (0 + 1) = 2 * backoffDelay 0 ∧
    (fetchWithRetryFrom (fun _ => .reject "boom") 2 0).delays.head? =
      some (min (500 * 2 ^ 0) 10000) ∧
    (fetchWithRetryFrom (fun _ => .response resp503) 2 0).delays.head? =
      some (min (500 * 2 ^ 0) 10000) := by
  obtain ⟨-, -, -, -, -, -, hcap, -, -, -⟩ :=
    backoff_doubles_capped (fun _ => .reject "boom") 2 5 resp503 "boom"
  obtain ⟨-, -, -, -, -, -, -, hdbl, hrej, -⟩ :=
    backoff_doubles_capped (fun _ => .reject "boom") 2 0 resp503 "boom"
  obtain ⟨-, -, -, -, -, -, -, -, -, hresp⟩ :=
    backoff_doubles_capped (fun _ => .response resp503) 2 0 resp503 "boom"
  exact ⟨hcap (by decide), hdbl (by decide), hrej (by decide) rfl,
    hresp (by decide) rfl rfl (by decide) rfl⟩

/-- C4: when a retriable response carries a `Retry-After` header parsing to
the finite value `v`, the delay before the next attempt is
`min(v * 1000, 30000)` ms instead of the exponential backoff; when the
header is absent, empty or not finite, the delay is the exponential
`min(500 * 2 ^ attempt, 10000)` ms — stated for `getRetryDelay` and for the
delay the loop actually sleeps. -/
theorem server_retry_hint_honored (oracle : Nat → FetchOutcome) (m a : Nat)
    (r : Response) (v : ℚ) :
    (∀ resp att, resp.retryAfterHeader = .num v →
      getRetryDelay resp att = min (v * 1000) 30000) ∧
    (∀ resp att, resp.retryAfterHeader.isNum = false →
      getRetryDelay resp att = min (500 * 2 ^ att) 10000) ∧
    (a < m → oracle a = .response r → r.ok = false →
      retriable r.status = true → r.retryAfterHeader = .num v →
      (fetchWithRetryFrom oracle m a).delays.head? =
        some (min (v * 1000) 30000)) ∧
    (a < m → oracle a = .response r → r.ok = false →
      retriable r.status = true → r.retryAfterHeader.isNum = false →
      (fetchWithRetryFrom oracle m a).delays.head? =
        some (min (500 * 2 ^ a) 10000)) := by
  have hdelay : ∀ resp att, resp.retryAfterHeader = .num v →
      getRetryDelay resp att = min (v * 1000) 30000 := by
    intro resp att hh
    rw [getRetryDelay, hh]
  have hback : ∀ resp att, resp.retryAfterHeader.isNum = false →
      getRetryDelay resp att = min (500 * 2 ^ att) 10000 := by
    intro resp att hnum
    cases hh : resp.retryAfterHeader with
    | num w => rw [hh] at hnum; cases hnum
    | absent => rw [getRetryDelay, hh]
    | empty => rw [getRetryDelay, hh]
    | nonFinite => rw [getRetryDelay, hh]
  refine ⟨hdelay, hback, ?_, ?_⟩
  · intro hlt ho hok hr hh
    rw [retriable_step oracle m a r hlt ho hok hr]
    dsimp only
    rw [List.head?_cons, hdelay r a hh]
  · intro hlt ho hok hr hnum
    rw [retriable_step oracle m a r hlt ho hok hr]
    dsimp only
    rw [List.head?_cons, hback r a hnum]

theorem server_retry_hint_honored_witness :
    getRetryDelay resp503hint 0 = min (7 * 1000) 30000 ∧
    getRetryDelay resp503 0 = min (500 * 2 ^ 0) 10000 ∧
    (fetchWithRetryFrom (fun _ => .response resp503hint) 2 0).delays.head? =
      some (min (7 * 1000) 30000) ∧
    (fetchWithRetryFrom (fun _ => .response resp503) 2 0).delays.head? =
      some (min (500 * 2 ^ 0) 10000) := by
  obtain ⟨h1, -, h3, -⟩ :=
    server_retry_hint_honored (fun _ => .response resp503hint) 2 0 resp503hint 7
  obtain ⟨-, h2, -, h4⟩ :=
    server_retry_hint_honored (fun _ => .response resp503) 2 0 resp503 7
  exact ⟨h1 resp503hint 0 rfl, h2 resp503 0 rfl,
    h3 (by decide) rfl rfl (by decide) rfl,
    h4 (by decide) rfl rfl (by decide) rfl⟩

/-- C5: `throwForStatus` maps a terminal non-ok response by status code:
`401` to `AuthenticationError` (status `401`, code `"UNAUTHENTICATED"`),
`429` to `RateLimitError` (status `429`, code `"RATE_LIMITED"`, with
`retryAfter` the parsed finite `Retry-After` value and `null` otherwise),
and every other status to a `LangblyError` carrying that response's status
and the error code from the response body when present (`""` otherwise). -/
theorem typed_error_mapping (r : Response) :
    r.ok = false →
    ((r.status = 401 →
      throwForStatus r = .authenticationError (respMessage r) ∧
      (throwForStatus r).status = 401 ∧
      (throwForStatus r).code = "UNAUTHENTICATED") ∧
     (r.status = 429 →
      throwForStatus r = .rateLimitError (respMessage r) (parseRetryAfter r) ∧
      (throwForStatus r).status = 429 ∧
      (throwForStatus r).code = "RATE_LIMITED" ∧
      (∀ v, r.retryAfterHeader = .num v →
        (throwForStatus r).retryAfterField = some (some v)) ∧
      (r.retryAfterHeader.isNum = false →
        (throwForStatus r).retryAfterField = some none)) ∧
     (r.status ≠ 401 → r.status ≠ 429 →
      throwForStatus r = .langblyError (respMessage r) r.status (respCode r) ∧
      (throwForStatus r).status = r.status ∧
      (∀ em c, r.body = .json em (some c) → (throwForStatus r).code = c) ∧
      (∀ em, r.body = .json em none → (throwForStatus r).code = ""))) := by
  intro hok
  refine ⟨?_, ?_, ?_⟩
  · intro h401
    rw [throwForStatus, if_pos h401]
    exact ⟨rfl, rfl, rfl⟩
  · intro h429
    rw [throwForStatus, if_neg (by omega), if_pos h429]
    refine ⟨rfl, rfl, rfl, ?_, ?_⟩
    · intro v hv
      rw [LangblyError.retryAfterField, parseRetryAfter, hv]
    · intro hnum
      cases hh : r.retryAfterHeader with
      | num w => rw [hh] at hnum; cases hnum
      | absent => rw [LangblyError.retryAfterField, parseRetryAfter, hh]
      | empty => rw [LangblyError.retryAfterField, parseRetryAfter, hh]
      | nonFinite => rw [LangblyError.retryAfterField, parseRetryAfter, hh]
  · intro h401 h429
    rw [throwForStatus, if_neg h401, if_neg h429]
    refine ⟨rfl, rfl, ?_, ?_⟩
    · intro em c hbody
      rw [LangblyError.code, respCode, hbody]
      rfl
    · intro em hbody
      rw [LangblyError.code, respCode, hbody]
      rfl

theorem typed_error_mapping_witness :
    throwForStatus resp401 = .authenticationError (respMessage resp401) ∧
    (throwForStatus resp401).code = "UNAUTHENTICATED" ∧
    throwForStatus resp429 = .rateLimitError (respMessage resp429) (parseRetryAfter resp429) ∧
    (throwForStatus resp429).retryAfterField = some (some 3) ∧
    (throwForStatus resp429nohint).retryAfterField = some none ∧
    throwForStatus resp404 = .langblyError (respMessage resp404) resp404.status (respCode resp404) ∧
    (throwForStatus resp404).code = "NOT_FOUND" := by
  obtain ⟨h401, -, -⟩ := typed_error_mapping resp401 rfl
  obtain ⟨-, h429, -⟩ := typed_error_mapping resp429 rfl
  obtain ⟨-, h429n, -⟩ := typed_error_mapping resp429nohint rfl
  obtain ⟨-, -, h404⟩ := typed_error_mapping resp404 rfl
  obtain ⟨ha, -, hc⟩ := h401 rfl
  obtain ⟨hb, -, -, hra, -⟩ := h429 rfl
  obtain ⟨-, -, -, -, hran⟩ := h429n rfl
  obtain ⟨hd, -, hcode, -⟩ := h404 (by decide) (by decide)
  exact ⟨ha, hc, hb, hra 3 rfl, hran rfl, hd, hcode (some "not found") "NOT_FOUND" rfl⟩

/-- C6: `translate` issues exactly one POST whose body field `q` is the
input array unchanged (no splitting or reordering) and returns the mapped
array of translations; for a single string the body's `q` is the one-element
array containing it and the first translation (`translations[0]`) is
returned. -/
theorem batch_passthrough (server : TranslateBody → List TranslateItem)
    (l : List String) (s : String) (options : TranslateOptions) :
    (translate server (.batch l) options).1 =
      [mkTranslateBody (.batch l) options] ∧
    (mkTranslateBody (.batch l) options).q = l ∧
    (translate server (.batch l) options).2 =
      .batch ((server (mkTranslateBody (.batch l) options)).map
        (mkTranslation options)) ∧
    (translate server (.single s) options).1 =
      [mkTranslateBody (.single s) options] ∧
    (mkTranslateBody (.single s) options).q = [s] ∧
    (translate server (.single s) options).2 =
      .single ((server (mkTranslateBody (.single s) options)).map
        (mkTranslation options)).head? :=
  ⟨rfl, rfl, rfl, rfl, rfl, rfl⟩

/-- C7: the client's configuration fields are assigned only by the
constructor; the state-passing translations of the public operations
(`translate`, `detect`, `languages`) return the configuration unchanged, so
`apiKey`, `baseUrl`, `timeout` and `maxRetries` are the same after any call
and no call's outcome can depend on state written by a previous call. -/
theorem config_unchanged_by_operations (c : Langbly)
    (serverT : TranslateBody → List TranslateItem) (text : TranslateInput)
    (options : TranslateOptions) (serverD : String → DetectionItem)
    (t : String) (serverL : Option String → List LanguageItem)
    (target : Option String) :
    (c.translateSt serverT text options).1 = c ∧
    (c.detectSt serverD t).1 = c ∧
    (c.languagesSt serverL target).1 = c ∧
    (c.translateSt serverT text options).1.apiKey = c.apiKey ∧
    (c.detectSt serverD t).1.baseUrl = c.baseUrl ∧
    (c.languagesSt serverL target).1.timeout = c.timeout ∧
    (c.translateSt serverT text options).1.maxRetries = c.maxRetries :=
  ⟨rfl, rfl, rfl, rfl, rfl, rfl, rfl⟩

/-- C8: constructing a client with an absent or empty `apiKey` throws
`Error("apiKey is required")` and produces no instance. -/
theorem constructor_requires_apiKey (options : LangblyOptions) :
    options.apiKey = none ∨ options.apiKey = some "" →
    Langbly.create options = .error "apiKey is required" := by
  intro h
  rcases h with h | h <;> simp [Langbly.create, isFalsyStr, h]

theorem constructor_requires_apiKey_witness :
    Langbly.create ⟨none, none, none, none⟩ = .error "apiKey is required" ∧
    Langbly.create ⟨some "", none, none, none⟩ = .error "apiKey is required" :=
  ⟨constructor_requires_apiKey ⟨none, none, none, none⟩ (Or.inl rfl),
    constructor_requires_apiKey ⟨some "", none, none, none⟩ (Or.inr rfl)⟩

/-- C9: when `fetch` rejects on every one of the `n + 1` attempts, the loop
throws a `LangblyError` with status `0`, code `"CONNECTION_ERROR"` and a
message reporting `n + 1` attempts, after sleeping the backoff delay between
consecutive attempts; a rejection on a non-final attempt is followed by a
backoff sleep and a further attempt. -/
theorem connection_error_after_retries (oracle : Nat → FetchOutcome)
    (n : Nat) (msgF : Nat → String) (a : Nat) (msg : String) :
    ((∀ i, i ≤ n → oracle i = .reject (msgF i)) →
      (fetchWithRetry oracle n).result = .error (.langblyError
        ("Request failed after " ++ toString (n + 1) ++ " attempts: " ++
          msgF n) 0 "CONNECTION_ERROR") ∧
      (fetchWithRetry oracle n).fetchCalls = n + 1 ∧
      (fetchWithRetry oracle n).delays = (List.range n).map backoffDelay) ∧
    (a < n → oracle a = .reject msg →
      fetchWithRetryFrom oracle n a =
        { fetchCalls := (fetchWithRetryFrom oracle n (a + 1)).fetchCalls + 1
          delays := backoffDelay a ::
            (fetchWithRetryFrom oracle n (a + 1)).delays
          result := (fetchWithRetryFrom oracle n (a + 1)).result }) := by
  constructor
  · intro hall
    have h := allReject_trace_aux oracle msgF n n 0 (by omega) (by omega)
      (fun i _ him => hall i him)
    unfold fetchWithRetry
    rw [h]
    refine ⟨rfl, by dsimp only; omega, ?_⟩
    dsimp only
    rw [List.range_eq_range']
    norm_num
  · intro hlt ho
    exact reject_step oracle n a msg hlt ho

theorem connection_error_after_retries_witness :
    (fetchWithRetry (fun _ => .reject "refused") 2).result =
      .error (.langblyError
        ("Request failed after " ++ toString (2 + 1) ++ " attempts: " ++
          "refused") 0 "CONNECTION_ERROR") ∧
    (fetchWithRetry (fun _ => .reject "refused") 2).fetchCalls = 2 + 1 ∧
    (fetchWithRetryFrom (fun _ => .reject "refused") 2 0).delays =
      backoffDelay 0 :: (fetchWithRetryFrom (fun _ => .reject "refused") 2 1).delays := by
  obtain ⟨hall, hstep⟩ := connection_error_after_retries
    (fun _ => .reject "refused") 2 (fun _ => "refused") 0 "refused"
  obtain ⟨h1, h2, -⟩ := hall (fun i _ => rfl)
  refine ⟨h1, h2, ?_⟩
  rw [hstep (by decide) rfl]

/-- C10: every `Translation` produced by `translate` has `source` equal to
the server item's `detectedSourceLanguage` when present, otherwise the
caller's `options.source` when provided, otherwise the empty string — for
the array input item by item, and for the single-string input's returned
first translation. -/
theorem translation_source_fallback
    (server : TranslateBody → List TranslateItem) (l : List String)
    (s : String) (options : TranslateOptions) :
    (∀ ts, (translate server (.batch l) options).2 = .batch ts →
      ts.length = (server (mkTranslateBody (.batch l) options)).length ∧
      ∀ i (h1 : i < ts.length)
        (h2 : i < (server (mkTranslateBody (.batch l) options)).length),
        (ts.get ⟨i, h1⟩).source =
          ((server (mkTranslateBody (.batch l) options)).get
            ⟨i, h2⟩).detectedSourceLanguage.getD (options.source.getD "")) ∧
    (∀ t, (translate server (.single s) options).2 = .single (some t) →
      ∃ item, item ∈ server (mkTranslateBody (.single s) options) ∧
        t.source = item.detectedSourceLanguage.getD (options.source.getD "")) := by
  constructor
  · intro ts hts
    have hrfl : (translate server (.batch l) options).2 =
        .batch ((server (mkTranslateBody (.batch l) options)).map
          (mkTranslation options)) := rfl
    rw [hrfl] at hts
    injection hts with h
    subst h
    refine ⟨by simp, ?_⟩
    intro i h1 h2
    simp [List.get_eq_getElem, List.getElem_map, mkTranslation]
  · intro t ht
    have hrfl : (translate server (.single s) options).2 =
        .single ((server (mkTranslateBody (.single s) options)).map
          (mkTranslation options)).head? := rfl
    rw [hrfl] at ht
    injection ht with h
    cases hsv : server (mkTranslateBody (.single s) options) with
    | nil => rw [hsv] at h; cases h
    | cons item rest =>
      rw [hsv] at h
      rw [List.map_cons, List.head?_cons] at h
      injection h with h
      exact ⟨item, List.mem_cons_self item rest, by rw [← h]; rfl⟩

theorem translation_source_fallback_witness :
    (([mkTranslation sampleOptions sampleItem].get ⟨0, by decide⟩).source =
      ((sampleServer (mkTranslateBody (.batch ["hello"]) sampleOptions)).get
        ⟨0, by decide⟩).detectedSourceLanguage.getD
        (sampleOptions.source.getD "")) ∧
    (mkTranslation sampleOptions sampleItem).source =
      sampleItem.detectedSourceLanguage.getD (sampleOptions.source.getD "") := by
  constructor
  · exact ((translation_source_fallback sampleServer ["hello"] "hello"
      sampleOptions).1 [mkTranslation sampleOptions sampleItem] rfl).2
      0 (by decide) (by decide)
  · obtain ⟨item, hmem, hsrc⟩ := (translation_source_fallback sampleServer
      ["hello"] "hello" sampleOptions).2
      (mkTranslation sampleOptions sampleItem) rfl
    rw [show sampleServer (mkTranslateBody (.single "hello") sampleOptions) =
      [sampleItem] from rfl, List.mem_singleton] at hmem
    subst hmem
    exact hsrc

end LangblyJs
